import Mathlib

/-!
Verification of the table-construction core of the pantable-odoo filter
(`pantable/pantable.py`). Python strings are embedded as `List Char`
(`Str`), Python lists as Lean lists, Python `None`-returning functions as
`Option`, and exception-raising code as `Option`/`Except`. Machine floats
in the width computation are embedded as exact rationals (`ℚ`); the
computations involved are ratios of small integers, matching the spec's
"within floating tolerance" reading.
-/

set_option autoImplicit false

abbrev Str := List Char

/-- Python `s.split(c)` for a one-character separator: always returns at
least one (possibly empty) piece; `"".split(c) = [""]`. -/
def splitOnChar (c : Char) : Str → List Str
  | [] => [[]]
  | x :: xs =>
    let r := splitOnChar c xs
    if x = c then [] :: r
    else
      match r with
      | [] => [[x]]
      | h :: t => (x :: h) :: t

/-- Python `sep.join(pieces)`. -/
def joinSep (sep : Str) : List Str → Str
  | [] => []
  | [x] => x
  | x :: xs => x ++ sep ++ joinSep sep xs

/-- Python `max` over a list of naturals; Python raises on an empty list,
callers in this development only apply it to non-empty lists, where the
fold below agrees with Python's maximum element. -/
def pymax (l : List ℕ) : ℕ := l.foldl max 0

/-- Pandoc alignment values, as the strings used in `pantable.py`. -/
inductive PandocAlignment
  | AlignLeft
  | AlignCenter
  | AlignRight
  | AlignDefault
deriving DecidableEq, Repr

/-- The inner `get` of `parse_alignment`: lower-case the key; keys outside
`align_dict` fall back to the key `d`, i.e. `AlignDefault`. -/
def alignment_get (key : Char) : PandocAlignment :=
  let k := key.toLower
  if k = 'l' then PandocAlignment.AlignLeft
  else if k = 'c' then PandocAlignment.AlignCenter
  else if k = 'r' then PandocAlignment.AlignRight
  else PandocAlignment.AlignDefault

/-- `parse_alignment(alignment_string, n_col)` from `pantable.py`:
absent or empty string gives `None`; a too-long string is truncated to
`n_col`; each character is mapped through `alignment_get`; a too-short
string is right-padded with `AlignDefault`. -/
def parse_alignment (alignment_string : Option Str) (n_col : ℕ) : Option (List PandocAlignment) :=
  match alignment_string with
  | none => none
  | some cs =>
    if cs = [] then none
    else
      let n := cs.length
      let cs2 := if n_col < n then cs.take n_col else cs
      let alignment := cs2.map alignment_get
      some (if n < n_col then alignment ++ List.replicate (n_col - n) PandocAlignment.AlignDefault
            else alignment)

/-- C3: for every non-empty alignment string `cs` and column count `n_col`,
the parsed alignment is defined and is exactly the length-`n_col` list whose
`i`-th entry is the mapping of the `i`-th character when `i < |cs|` and
`AlignDefault` otherwise (so only the first `n_col` characters matter and
short strings are padded with defaults); the character mapping sends
`l`/`c`/`r`/`d` case-insensitively to left/center/right/default and any
other character to default. -/
theorem parse_alignment_spec (cs : Str) (n_col : ℕ) (h : cs ≠ []) :
    parse_alignment (some cs) n_col =
      some ((List.range n_col).map (fun i =>
        if hi : i < cs.length then alignment_get (cs.get ⟨i, hi⟩) else PandocAlignment.AlignDefault))
    ∧ alignment_get 'l' = PandocAlignment.AlignLeft
    ∧ alignment_get 'L' = PandocAlignment.AlignLeft
    ∧ alignment_get 'c' = PandocAlignment.AlignCenter
    ∧ alignment_get 'C' = PandocAlignment.AlignCenter
    ∧ alignment_get 'r' = PandocAlignment.AlignRight
    ∧ alignment_get 'R' = PandocAlignment.AlignRight
    ∧ alignment_get 'd' = PandocAlignment.AlignDefault
    ∧ (∀ c : Char, c.toLower ∉ (['l', 'c', 'r', 'd'] : List Char) →
        alignment_get c = PandocAlignment.AlignDefault) := by
  refine ⟨?_, rfl, rfl, rfl, rfl, rfl, rfl, rfl, ?_⟩
  · show (if cs = [] then none
      else
        let n := cs.length
        let cs2 := if n_col < n then cs.take n_col else cs
        let alignment := cs2.map alignment_get
        some (if n < n_col then alignment ++ List.replicate (n_col - n) PandocAlignment.AlignDefault
              else alignment)) = _
    rw [if_neg h]
    dsimp only
    congr 1
    by_cases hlong : n_col < cs.length
    · -- truncation branch: the pad condition `cs.length < n_col` is false
      have hnopad : ¬ cs.length < n_col := by omega
      rw [if_neg hnopad, if_pos hlong]
      apply List.ext_getElem
      · simp [Nat.le_of_lt hlong]
      · intro i h1 h2
        have hi : i < n_col := by
          have := h1
          simp only [List.length_map, List.length_take] at this
          omega
        have hic : i < cs.length := Nat.lt_trans hi hlong
        simp [List.getElem_take, hic, List.get_eq_getElem]
    · push_neg at hlong
      have hnotrunc : ¬ n_col < cs.length := by omega
      rw [if_neg hnotrunc]
      by_cases hshort : cs.length < n_col
      · rw [if_pos hshort]
        apply List.ext_getElem
        · simp only [List.length_append, List.length_map, List.length_replicate,
            List.length_range]
          omega
        · intro i h1 h2
          have hi : i < n_col := by simpa using h2
          by_cases hic : i < cs.length
          · rw [List.getElem_append_left (by simpa using hic)]
            simp [hic, List.get_eq_getElem]
          · push_neg at hic
            rw [List.getElem_append_right (by simpa using hic)]
            have hni : ¬ i < cs.length := by omega
            simp [hni]
      · have heq : cs.length = n_col := by omega
        rw [if_neg hshort]
        apply List.ext_getElem
        · simp [heq]
        · intro i h1 h2
          have hi : i < cs.length := by simpa using h1
          simp [hi, List.get_eq_getElem]
  · intro c hc
    unfold alignment_get
    simp only [List.mem_cons, List.mem_singleton] at hc
    push_neg at hc
    obtain ⟨h1, h2, h3, _⟩ := hc
    simp [h1, h2, h3]

/-- Concrete instance of the alignment-parser characterisation: input
string `lx` with three columns. -/
theorem parse_alignment_spec_witness :
    parse_alignment (some ['l', 'x']) 3 =
      some ((List.range 3).map (fun i =>
        if hi : i < (['l', 'x'] : Str).length then
          alignment_get ((['l', 'x'] : Str).get ⟨i, hi⟩)
        else PandocAlignment.AlignDefault)) :=
  (parse_alignment_spec ['l', 'x'] 3 (by decide)).1

theorem foldl_max_ge_init (l : List ℕ) (a : ℕ) : a ≤ l.foldl max a := by
  induction l generalizing a with
  | nil => exact Nat.le_refl a
  | cons x xs ih => exact Nat.le_trans (Nat.le_max_left a x) (ih (max a x))

theorem le_foldl_max_of_mem {x : ℕ} {l : List ℕ} (h : x ∈ l) (a : ℕ) : x ≤ l.foldl max a := by
  induction l generalizing a with
  | nil => cases h
  | cons y ys ih =>
    cases h with
    | head => exact Nat.le_trans (Nat.le_max_right a x) (foldl_max_ge_init ys (max a x))
    | tail _ hm => exact ih hm (max a y)

theorem foldl_max_attained (l : List ℕ) (a : ℕ) :
    l.foldl max a = a ∨ ∃ x ∈ l, l.foldl max a = x := by
  induction l generalizing a with
  | nil => exact Or.inl rfl
  | cons y ys ih =>
    rcases ih (max a y) with h | ⟨x, hx, hxe⟩
    · rcases max_choice a y with hm | hm
      · exact Or.inl (by rw [List.foldl_cons, h, hm])
      · exact Or.inr ⟨y, List.mem_cons_self y ys, by rw [List.foldl_cons, h, hm]⟩
    · exact Or.inr ⟨x, List.mem_cons_of_mem y hx, by rw [List.foldl_cons]; exact hxe⟩

theorem getD_replicate_nilStr (n j : ℕ) : (List.replicate n ([] : Str)).getD j [] = [] := by
  by_cases hl : j < n
  · rw [List.getD_eq_getElem _ _ (by simpa using hl)]
    simp
  · rw [List.getD_eq_default]
    simpa using hl

/-- `regularize_table_list(raw_table_list)` from `pantable.py`: `n_col` is
the maximum row length; every shorter row is padded on the right with empty
cells. The Python function mutates in place and returns `n_col`; here the
padded table is returned alongside. -/
def regularize_table_list (raw_table_list : List (List Str)) : ℕ × List (List Str) :=
  let n_col := pymax (raw_table_list.map List.length)
  (n_col, raw_table_list.map (fun row => row ++ List.replicate (n_col - row.length) ([] : Str)))

/-- C4: for every non-empty raw table, the returned `n_col` is the maximum
of the row lengths (it bounds every row length and is attained by some
row); after regularization the table has the same number of rows, every
row has length `n_col`, original cells are preserved at their positions,
and the appended cells are empty strings. -/
theorem regularize_table_list_spec (t : List (List Str)) (h : t ≠ []) :
    (∀ row ∈ t, row.length ≤ (regularize_table_list t).1)
    ∧ (∃ row ∈ t, row.length = (regularize_table_list t).1)
    ∧ (regularize_table_list t).2.length = t.length
    ∧ (∀ i, i < t.length →
        ((regularize_table_list t).2.getD i []).length = (regularize_table_list t).1
        ∧ ∀ j, j < (regularize_table_list t).1 →
            ((regularize_table_list t).2.getD i []).getD j [] =
              if j < (t.getD i []).length then (t.getD i []).getD j [] else []) := by
  have hbound : ∀ row ∈ t, row.length ≤ (regularize_table_list t).1 := by
    intro row hrow
    exact le_foldl_max_of_mem (List.mem_map_of_mem List.length hrow) 0
  refine ⟨hbound, ?_, by simp [regularize_table_list], ?_⟩
  · rcases foldl_max_attained (t.map List.length) 0 with h0 | ⟨x, hx, hxe⟩
    · obtain ⟨row, hrow⟩ := List.exists_mem_of_ne_nil t h
      refine ⟨row, hrow, ?_⟩
      have := hbound row hrow
      simp only [regularize_table_list] at this ⊢
      simp only [pymax, h0] at this ⊢
      omega
    · obtain ⟨row, hrow, hlen⟩ := List.mem_map.mp hx
      exact ⟨row, hrow, by simp only [regularize_table_list, pymax]; rw [hxe, hlen]⟩
  · intro i hi
    have hmap : (regularize_table_list t).2.getD i [] =
        t[i] ++ List.replicate ((regularize_table_list t).1 - t[i].length) ([] : Str) := by
      rw [List.getD_eq_getElem _ _ (by simpa [regularize_table_list] using hi)]
      simp [regularize_table_list]
    have hle : t[i].length ≤ (regularize_table_list t).1 :=
      hbound t[i] (List.getElem_mem hi)
    have htD : t.getD i [] = t[i] := List.getD_eq_getElem t [] hi
    constructor
    · rw [hmap]
      simp only [List.length_append, List.length_replicate]
      omega
    · intro j hj
      rw [hmap, htD]
      by_cases hjr : j < t[i].length
      · rw [if_pos hjr, List.getD_append _ _ _ _ hjr]
      · rw [if_neg hjr, List.getD_append_right _ _ _ _ (by omega), getD_replicate_nilStr]

/-- Concrete instance of the regularization theorem: a two-row table with
row lengths 1 and 2 regularizes to two rows. -/
theorem regularize_table_list_spec_witness :
    (regularize_table_list [[['a']], [['b'], ['c']]]).2.length = 2 :=
  (regularize_table_list_spec [[['a']], [['b'], ['c']]] (by decide)).2.2.1

/-- Maximum line length of a cell: the cell text is split on embedded
newlines and the longest piece's length is taken
(`max(map(len, row[j].split("\n")))` in `auto_width`). -/
def maxLineLen (s : Str) : ℕ := pymax ((splitOnChar (Char.ofNat 10) s).map List.length)

/-- Per-column maximum line widths from `auto_width` in `pantable.py`.
Rows are indexed with a default of the empty cell; callers regularize the
table first so every row has at least `n_col` cells. -/
def max_col_width (n_col : ℕ) (table_list : List (List Str)) : List ℕ :=
  (List.range n_col).map (fun j => pymax (table_list.map (fun row => maxLineLen (row.getD j []))))

/-- `auto_width(table_width, n_col, table_list)` from `pantable.py`:
`None` models the `EmptyTableError` raised when the summed column widths
are zero; otherwise each column width is `(max_col_width + 3) * scale`
with `scale = table_width / (width_tot + 3 * n_col)`. -/
def auto_width (table_width : ℚ) (n_col : ℕ) (table_list : List (List Str)) :
    Option (List ℚ) :=
  let m := max_col_width n_col table_list
  let width_tot := m.sum
  if width_tot = 0 then none
  else
    let scale := table_width / ((width_tot : ℚ) + 3 * n_col)
    some (m.map (fun w : ℕ => ((w : ℚ) + 3) * scale))

/-- C5: whenever the summed per-column maxima are non-zero, the automatic
width of each column equals
`(max_line_len_in_col + 3) * table_width / (width_tot + 3 * n_col)`. -/
theorem auto_width_formula (table_width : ℚ) (n_col : ℕ) (table_list : List (List Str))
    (h : (max_col_width n_col table_list).sum ≠ 0) :
    auto_width table_width n_col table_list =
      some ((max_col_width n_col table_list).map (fun w : ℕ =>
        ((w : ℚ) + 3) * table_width /
          (((max_col_width n_col table_list).sum : ℚ) + 3 * n_col))) := by
  unfold auto_width
  rw [if_neg h]
  dsimp only
  congr 1
  apply List.map_congr_left
  intro w _
  rw [mul_div_assoc]

/-- Concrete instance of the auto-width formula: per-column maxima
`[5, 10]` with `table_width = 1` give widths `[8/21, 13/21]`. -/
theorem auto_width_formula_witness :
    auto_width 1 2 [[['a', 'a', 'a', 'a', 'a'],
                     ['b', 'b', 'b', 'b', 'b', 'b', 'b', 'b', 'b', 'b']]] =
      some [8 / 21, 13 / 21] := by
  have hm : max_col_width 2 [[['a', 'a', 'a', 'a', 'a'],
      ['b', 'b', 'b', 'b', 'b', 'b', 'b', 'b', 'b', 'b']]] = [5, 10] := rfl
  rw [auto_width_formula 1 2 _ (by rw [hm]; norm_num)]
  rw [hm]
  simp only [List.map_cons, List.map_nil, List.sum_cons, List.sum_nil]
  norm_num

/-- Leading sign of a Python numeric literal: `true` means negative;
returns the remaining characters. -/
def splitSign (cs : Str) : Bool × Str :=
  match cs with
  | [] => (false, [])
  | c :: t =>
    if c = '-' then (true, t)
    else if c = '+' then (false, t)
    else (false, cs)

def allDigits (cs : Str) : Bool := cs.all Char.isDigit

/-- Value of a non-empty digit string. -/
def digitsVal (cs : Str) : ℕ :=
  cs.foldl (fun a c => a * 10 + (c.toNat - Char.toNat '0')) 0

/-- Decimal-literal parsing shared by Python's `float(...)` and the
decimal form of `fractions.Fraction(...)`: an optional sign, then digits
with an optional decimal point (`"5"`, `"5.5"`, `".5"`, `"5."`).
Exponent and infinity notations, which this filter's option values do not
use, are not modelled. -/
def parseDecimal (cs : Str) : Option ℚ :=
  let s := splitSign cs
  let sign : ℚ := if s.1 then -1 else 1
  match splitOnChar '.' s.2 with
  | [intPart] =>
    if intPart ≠ [] ∧ allDigits intPart then some (sign * (digitsVal intPart : ℚ))
    else none
  | [intPart, fracPart] =>
    if (intPart ≠ [] ∨ fracPart ≠ []) ∧ allDigits intPart ∧ allDigits fracPart then
      some (sign * ((digitsVal intPart : ℚ) +
        (digitsVal fracPart : ℚ) / ((10 : ℚ) ^ fracPart.length)))
    else none
  | _ => none

/-- Result of `fractions.Fraction(x)` on a string: a rational, a
`ValueError` (`invalid`), or a `ZeroDivisionError` for an explicit zero
denominator (`zeroDiv`), which `get_width`'s `except ValueError` does not
catch. -/
inductive FracResult
  | ok (q : ℚ)
  | invalid
  | zeroDiv
deriving DecidableEq, Repr

/-- `fractions.Fraction(x)` for the string forms used by the filter:
`"a/b"` with integer numerator and digit denominator, or a decimal
literal. -/
def parseFraction (cs : Str) : FracResult :=
  if cs.contains '/' then
    match splitOnChar '/' cs with
    | [num, den] =>
      let s := splitSign num
      if s.2 ≠ [] ∧ allDigits s.2 ∧ den ≠ [] ∧ allDigits den then
        if digitsVal den = 0 then FracResult.zeroDiv
        else
          FracResult.ok ((if s.1 then -1 else 1) * (digitsVal s.2 : ℚ) / (digitsVal den : ℚ))
      else FracResult.invalid
    | _ => FracResult.invalid
  else
    match parseDecimal cs with
    | some q => FracResult.ok q
    | none => FracResult.invalid

/-- The `width` and `table-width` entries of the options record, as the
string forms YAML hands to `get_width`/`get_table_width`. -/
structure WidthOptions where
  width : Option (List Str)
  tableWidth : Option Str
deriving Repr

/-- `[float(fractions.Fraction(x)) for x in width]`: the comprehension
evaluates left to right; the first `ValueError` (`.ok none`) or
`ZeroDivisionError` (`.error ()`) aborts it. -/
def parseWidthList : List Str → Except Unit (Option (List ℚ))
  | [] => Except.ok (some [])
  | x :: xs =>
    match parseFraction x with
    | FracResult.zeroDiv => Except.error ()
    | FracResult.invalid => Except.ok none
    | FracResult.ok q =>
      match parseWidthList xs with
      | Except.error e => Except.error e
      | Except.ok none => Except.ok none
      | Except.ok (some qs) => Except.ok (some (q :: qs))

/-- `get_width(options, n_col)` from `pantable.py`: `None` (here
`.ok none`) when no `width` option is given, the length mismatches
`n_col`, an entry fails to parse (`ValueError` caught), or an entry is
negative; `.error ()` models the uncaught `ZeroDivisionError`. -/
def get_width (options : WidthOptions) (n_col : ℕ) : Except Unit (Option (List ℚ)) :=
  match options.width with
  | none => Except.ok none
  | some width =>
    if width.length ≠ n_col then Except.ok none
    else
      match parseWidthList width with
      | Except.error e => Except.error e
      | Except.ok none => Except.ok none
      | Except.ok (some ws) =>
        if ws.any (fun w => w < 0) then Except.ok none else Except.ok (some ws)

/-- `get_table_width(options)` from `pantable.py`: 1 when absent, when it
fails to parse (`ValueError` caught), or when non-positive; `.error ()`
models the uncaught `ZeroDivisionError`. -/
def get_table_width (options : WidthOptions) : Except Unit ℚ :=
  match options.tableWidth with
  | none => Except.ok 1
  | some s =>
    match parseFraction s with
    | FracResult.zeroDiv => Except.error ()
    | FracResult.invalid => Except.ok 1
    | FracResult.ok q => if q ≤ 0 then Except.ok 1 else Except.ok q

inductive WidthErr
  | zeroDiv
  | emptyTable
deriving DecidableEq, Repr

/-- `get_width_wrap(options, n_col, table_list)` from `pantable.py`:
explicit width when `get_width` returns one, otherwise the automatic
width; `auto_width`'s `EmptyTableError` and an uncaught
`ZeroDivisionError` propagate. -/
def get_width_wrap (options : WidthOptions) (n_col : ℕ) (table_list : List (List Str)) :
    Except WidthErr (List ℚ) :=
  match get_width options n_col with
  | Except.error _ => Except.error WidthErr.zeroDiv
  | Except.ok (some w) => Except.ok w
  | Except.ok none =>
    match get_table_width options with
    | Except.error _ => Except.error WidthErr.zeroDiv
    | Except.ok tw =>
      match auto_width tw n_col table_list with
      | none => Except.error WidthErr.emptyTable
      | some w => Except.ok w

theorem parseWidthList_ne_error (l : List Str)
    (h : ∀ x ∈ l, parseFraction x ≠ FracResult.zeroDiv) :
    parseWidthList l ≠ Except.error () := by
  induction l with
  | nil => simp [parseWidthList]
  | cons y ys ih =>
    simp only [parseWidthList]
    cases hy : parseFraction y with
    | zeroDiv => exact absurd hy (h y (List.mem_cons_self y ys))
    | invalid => simp
    | ok q =>
      cases hys : parseWidthList ys with
      | error e =>
        cases e
        exact absurd hys (ih fun x hx => h x (List.mem_cons_of_mem y hx))
      | ok o => cases o <;> simp

theorem parseWidthList_ok_some {l : List Str} {qs : List ℚ}
    (h : parseWidthList l = Except.ok (some qs)) :
    ∀ x ∈ l, ∃ q, parseFraction x = FracResult.ok q ∧ q ∈ qs := by
  induction l generalizing qs with
  | nil => intro x hx; cases hx
  | cons y ys ih =>
    intro x hx
    simp only [parseWidthList] at h
    cases hy : parseFraction y <;> rw [hy] at h
    case zeroDiv => simp at h
    case invalid => simp at h
    case ok q =>
      cases hys : parseWidthList ys <;> rw [hys] at h
      case error e => simp at h
      case ok o =>
        cases o with
        | none => simp at h
        | some qs' =>
          simp only [Except.ok.injEq, Option.some.injEq] at h
          subst h
          rcases List.mem_cons.mp hx with rfl | hmem
          · exact ⟨q, hy, List.mem_cons_self q qs'⟩
          · obtain ⟨q2, hq2, hq2m⟩ := ih hys x hmem
            exact ⟨q2, hq2, List.mem_cons_of_mem q hq2m⟩

/-- C6 counterexample: the explicit width list `["1/0", "2", "3"]` with
three columns contains an entry that fails to parse as a rational — but
instead of being discarded in favour of the automatic width,
`fractions.Fraction("1/0")` raises a `ZeroDivisionError` that
`except ValueError` does not catch, so the conversion aborts; the
automatic width on the same table does not abort. -/
theorem get_width_zero_denominator_counterexample :
    get_width_wrap ⟨some [['1', '/', '0'], ['2'], ['3']], none⟩ 3
        [[['a'], ['b', 'b'], ['c', 'c', 'c']]] = Except.error WidthErr.zeroDiv
    ∧ get_width_wrap ⟨none, none⟩ 3 [[['a'], ['b', 'b'], ['c', 'c', 'c']]] ≠
        Except.error WidthErr.zeroDiv := by
  constructor
  · rfl
  · obtain ⟨w, hw⟩ : ∃ w, get_width_wrap (⟨none, none⟩ : WidthOptions) 3
        [[['a'], ['b', 'b'], ['c', 'c', 'c']]] = Except.ok w := ⟨_, rfl⟩
    rw [hw]
    simp

/-- C6 (amended): when an explicit `width` list is present and it has the
wrong length, or some entry fails to parse without being a
zero-denominator fraction, or some parsed entry is negative,
`get_width_wrap` produces the same result as with no explicit `width`
option at all, i.e. the automatic width. A zero-denominator entry such
as `"1/0"` instead raises an uncaught `ZeroDivisionError` that aborts
the conversion. -/
theorem get_width_wrap_discards (opts : WidthOptions) (n_col : ℕ) (t : List (List Str))
    (ws : List Str)
    (hw : opts.width = some ws)
    (hnozero : ∀ x ∈ ws, parseFraction x ≠ FracResult.zeroDiv)
    (hbad : ws.length ≠ n_col
      ∨ (∃ x ∈ ws, parseFraction x = FracResult.invalid)
      ∨ (∃ x ∈ ws, ∃ q, parseFraction x = FracResult.ok q ∧ q < 0)) :
    get_width_wrap opts n_col t = get_width_wrap ⟨none, opts.tableWidth⟩ n_col t := by
  have hgw : get_width opts n_col = Except.ok none := by
    simp only [get_width, hw]
    rcases hbad with hlen | hinv | hneg
    · rw [if_pos hlen]
    · by_cases hlen : ws.length ≠ n_col
      · rw [if_pos hlen]
      · rw [if_neg hlen]
        cases hres : parseWidthList ws with
        | error e =>
          cases e
          exact absurd hres (parseWidthList_ne_error ws hnozero)
        | ok o =>
          cases o with
          | none => rfl
          | some qs =>
            obtain ⟨x, hx, hxinv⟩ := hinv
            obtain ⟨q, hq, _⟩ := parseWidthList_ok_some hres x hx
            rw [hq] at hxinv
            cases hxinv
    · by_cases hlen : ws.length ≠ n_col
      · rw [if_pos hlen]
      · rw [if_neg hlen]
        cases hres : parseWidthList ws with
        | error e =>
          cases e
          exact absurd hres (parseWidthList_ne_error ws hnozero)
        | ok o =>
          cases o with
          | none => rfl
          | some qs =>
            obtain ⟨x, hx, q, hq, hql⟩ := hneg
            obtain ⟨q2, hq2, hq2m⟩ := parseWidthList_ok_some hres x hx
            rw [hq] at hq2
            have hqm : q ∈ qs := by
              cases hq2
              exact hq2m
            have hany : (qs.any fun w => decide (w < 0)) = true :=
              List.any_eq_true.mpr ⟨q, hqm, decide_eq_true hql⟩
            simp only [hany, if_true]
  have hR : get_width (⟨none, opts.tableWidth⟩ : WidthOptions) n_col = Except.ok none := rfl
  unfold get_width_wrap
  rw [hgw, hR]
  rfl

/-- Concrete instance of the explicit-width rejection: the list
`["1", "2"]` with three columns is discarded and auto-width is used. -/
theorem get_width_wrap_discards_witness :
    get_width_wrap ⟨some [['1'], ['2']], none⟩ 3 [[['a'], ['b', 'b'], ['c', 'c', 'c']]] =
      get_width_wrap ⟨none, none⟩ 3 [[['a'], ['b', 'b'], ['c', 'c', 'c']]] :=
  get_width_wrap_discards ⟨some [['1'], ['2']], none⟩ 3 _ [['1'], ['2']] rfl
    (by decide) (Or.inl (by decide))

/-- Python list indexing: a negative index counts from the end. -/
def pyIndex (l : Str) (idx : ℤ) : ℤ :=
  if idx < 0 then (l.length : ℤ) + idx else idx

/-- Python `chars[idx] = c` on a list of characters: `none` models the
`IndexError` on an out-of-range index. -/
def setAt (l : Str) (idx : ℤ) (c : Char) : Option Str :=
  if 0 ≤ pyIndex l idx ∧ pyIndex l idx < (l.length : ℤ) then
    some (l.set (pyIndex l idx).toNat c)
  else none

/-- The `align_dict` of `modified_align_border`: which indices of a border
segment are replaced by a colon. -/
def align_dict_idxs : PandocAlignment → List ℤ
  | PandocAlignment.AlignLeft => [0]
  | PandocAlignment.AlignCenter => [0, -1]
  | PandocAlignment.AlignRight => [-1]
  | PandocAlignment.AlignDefault => []

def applyIdxs : List ℤ → Str → Option Str
  | [], l => some l
  | idx :: rest, l =>
    match setAt l idx ':' with
    | none => none
    | some l2 => applyIdxs rest l2

/-- The inner `modify_border(header_border, alignment)` of
`modified_align_border`. -/
def modify_border (header_border : Str) (alignment : PandocAlignment) : Option Str :=
  applyIdxs (align_dict_idxs alignment) header_border

/-- Python `set(line) == {'+', '='}`: the line consists only of `+` and
`=` and contains both. -/
def isSepLine (l : Str) : Bool :=
  l.all (fun c => c == '+' || c == '=') && l.contains '+' && l.contains '='

/-- `modified_align_border(text, alignment, header)` from `pantable.py`.
With a header, the first row made solely of `+`/`=` is selected; when no
such row exists the Python loop variable is left at the *last* line and
that line is still rewritten (the warning does not return early). Without
a header row 0 is selected. The selected line is split on `+`, the two
boundary pieces are dropped, each remaining segment is rewritten per its
column's alignment (truncating to the shorter of segments and alignments,
as `zip` does), and the line is reassembled. `none` models an
`IndexError` from `modify_border` on an empty segment. -/
def modified_align_border (text : Str) (alignment : List PandocAlignment) (header : Bool) :
    Option Str :=
  let text_list := splitOnChar '\n' text
  let i := if header then
      match text_list.findIdx? (fun l => isSepLine l) with
      | some j => j
      | none => text_list.length - 1
    else 0
  let header_border := text_list.getD i []
  let segs := ((splitOnChar '+' header_border).drop 1).dropLast
  match (segs.zip alignment).mapM (fun p => modify_border p.1 p.2) with
  | none => none
  | some segs2 =>
    some (joinSep ['\n'] (text_list.set i ('+' :: (joinSep ['+'] segs2 ++ ['+']))))

/-- C1: with a header requested and no line made solely of `+`/`=`, the
encoder does *not* return the text unchanged: on the one-line text `abc`
with alignment `[AlignLeft]` it rewrites the last line to `++`, contrary
to its own warning that alignment cannot be added. -/
theorem modified_align_border_missing_sep :
    modified_align_border ['a', 'b', 'c'] [PandocAlignment.AlignLeft] true =
      some ['+', '+']
    ∧ (['+', '+'] : Str) ≠ ['a', 'b', 'c'] := by
  decide

/-- C7: on every non-empty border segment, `modify_border` replaces the
first character by `:` for left alignment, the last for right, both for
center and none for default; end to end, the separator row `+===+===+`
with alignment `[AlignLeft, AlignRight]` is rewritten to `+:==+==:+`. -/
theorem modify_border_spec :
    (∀ s : Str, s ≠ [] →
      modify_border s PandocAlignment.AlignLeft = some (s.set 0 ':')
      ∧ modify_border s PandocAlignment.AlignRight = some (s.set (s.length - 1) ':')
      ∧ modify_border s PandocAlignment.AlignCenter =
          some ((s.set 0 ':').set (s.length - 1) ':')
      ∧ modify_border s PandocAlignment.AlignDefault = some s)
    ∧ modified_align_border ['+', '=', '=', '=', '+', '=', '=', '=', '+']
        [PandocAlignment.AlignLeft, PandocAlignment.AlignRight] true =
        some ['+', ':', '=', '=', '+', '=', '=', ':', '+'] := by
  constructor
  · intro s h
    have hlen : 0 < s.length := List.length_pos.mpr h
    have hp0 : pyIndex s 0 = 0 := by simp [pyIndex]
    have hpm : pyIndex s (-1) = (s.length : ℤ) - 1 := by
      unfold pyIndex
      rw [if_pos (by norm_num : (-1 : ℤ) < 0)]
      omega
    have h0 : setAt s 0 ':' = some (s.set 0 ':') := by
      unfold setAt
      rw [hp0]
      rw [if_pos ⟨le_refl 0, by exact_mod_cast hlen⟩]
      simp
    have hm : setAt s (-1) ':' = some (s.set (s.length - 1) ':') := by
      unfold setAt
      rw [hpm]
      rw [if_pos ⟨by omega, by omega⟩]
      have hidx0 : ((s.length : ℤ) - 1).toNat = s.length - 1 := by omega
      rw [hidx0]
    refine ⟨?_, ?_, ?_, rfl⟩
    · show (match setAt s 0 ':' with
        | none => none
        | some l2 => applyIdxs [] l2) = some (s.set 0 ':')
      rw [h0]
      rfl
    · show (match setAt s (-1) ':' with
        | none => none
        | some l2 => applyIdxs [] l2) = some (s.set (s.length - 1) ':')
      rw [hm]
      rfl
    · show (match setAt s 0 ':' with
        | none => none
        | some l2 => applyIdxs [-1] l2) = some ((s.set 0 ':').set (s.length - 1) ':')
      rw [h0]
      have hlen2 : 0 < (s.set 0 ':').length := by simpa using hlen
      have hpm2 : pyIndex (s.set 0 ':') (-1) = ((s.set 0 ':').length : ℤ) - 1 := by
        unfold pyIndex
        rw [if_pos (by norm_num : (-1 : ℤ) < 0)]
        omega
      show (match setAt (s.set 0 ':') (-1) ':' with
        | none => none
        | some l2 => applyIdxs [] l2) = some ((s.set 0 ':').set (s.length - 1) ':')
      unfold setAt
      rw [hpm2]
      rw [if_pos ⟨by omega, by omega⟩]
      have hidx2 : (((s.set 0 ':').length : ℤ) - 1).toNat = s.length - 1 := by
        rw [List.length_set]
        omega
      rw [hidx2]
      rfl
  · decide

/-- Concrete instance of the segment-rewrite rules: a three-character
segment under left alignment. -/
theorem modify_border_spec_witness :
    modify_border ['=', '=', '='] PandocAlignment.AlignLeft =
      some ((['=', '=', '='] : Str).set 0 ':') :=
  (modify_border_spec.1 ['=', '=', '='] (by decide)).1

/-- The exception kinds that can escape the body of `convert2table`:
`EmptyTableError` and `MoreThanHeaderContentError` are the filter's own;
`fileNotFoundError`, `importError`, `typeError` and `keyError` model the
corresponding Python built-ins; `assertionError` models the failed
configuration assertions. -/
inductive PanErr
  | emptyTableError
  | moreThanHeaderContentError
  | fileNotFoundError
  | importError
  | typeError
  | keyError
  | assertionError
deriving DecidableEq, Repr

/-- Result of the `convert2table` entry point as seen by the host filter:
a rendered value, `[]` (delete the element, `deleted`) or `None` (leave
the element unchanged, `unchanged`). -/
inductive ConvResult (α : Type)
  | rendered (a : α)
  | deleted
  | unchanged
deriving DecidableEq, Repr

/-- The `try/except` tail of `convert2table` in `pantable.py`, with the
body (options merge, data fetch and rendering) abstracted as its outcome
`r`: `FileNotFoundError` and `ImportError` leave the element unchanged,
`EmptyTableError` deletes it, every other exception propagates. -/
def convert2tableHandle {α : Type} (r : Except PanErr α) : Except PanErr (ConvResult α) :=
  match r with
  | Except.ok v => Except.ok (ConvResult.rendered v)
  | Except.error PanErr.fileNotFoundError => Except.ok ConvResult.unchanged
  | Except.error PanErr.emptyTableError => Except.ok ConvResult.deleted
  | Except.error PanErr.importError => Except.ok ConvResult.unchanged
  | Except.error e => Except.error e

/-- C8: `auto_width` signals the empty-table error exactly when the sum of
the per-column maximum line lengths is zero, and the `convert2table`
exception handler turns the empty-table error into the delete-element
signal instead of propagating it. -/
theorem empty_table_error_spec :
    (∀ (table_width : ℚ) (n_col : ℕ) (table_list : List (List Str)),
      auto_width table_width n_col table_list = none ↔
        (max_col_width n_col table_list).sum = 0)
    ∧ convert2tableHandle (α := Unit) (Except.error PanErr.emptyTableError) =
        Except.ok ConvResult.deleted := by
  refine ⟨?_, rfl⟩
  intro table_width n_col table_list
  unfold auto_width
  by_cases h : (max_col_width n_col table_list).sum = 0
  · simp [h]
  · simp [h]

/-- The `align_dict` of `csv_to_pipe_tables`: the separator-row token for
each alignment. -/
def pipe_align_dict : PandocAlignment → Str
  | PandocAlignment.AlignLeft => [':', '-', '-', '-']
  | PandocAlignment.AlignCenter => [':', '-', '-', '-', ':']
  | PandocAlignment.AlignRight => ['-', '-', '-', ':']
  | PandocAlignment.AlignDefault => ['-', '-', '-']

/-- Python `list.insert(1, x)`: inserts after the first element
(appending when the list is shorter). -/
def insertAt1 {α : Type} (l : List α) (x : α) : List α :=
  l.take 1 ++ x :: l.drop 1

/-- `csv_to_pipe_tables(table_list, caption, alignment)` from
`pantable.py`. The separator row is built by iterating `alignment`; when
the alignment is `None` (absent), iterating it raises `TypeError`, which
is modelled by `.error .typeError`. Python's `if caption:` appends the
caption lines only when the caption is present and non-empty. -/
def csv_to_pipe_tables (table_list : List (List Str)) (caption : Option Str)
    (alignment : Option (List PandocAlignment)) : Except PanErr Str :=
  match alignment with
  | none => Except.error PanErr.typeError
  | some al =>
    let table_list2 := insertAt1 table_list (al.map pipe_align_dict)
    let rows := table_list2.map (fun row =>
      '|' :: '\t' :: (joinSep ['\t', '|', '\t'] row ++ ['\t', '|']))
    let rows2 := match caption with
      | some c => if c = [] then rows else rows ++ [[], ':' :: ' ' :: c]
      | none => rows
    Except.ok (joinSep ['\n'] rows2)

/-- C9: pipe-table rendering fails with the `TypeError` whenever the
alignment parser returned its "no alignment" sentinel (`None`), which it
does in particular when no alignment option is supplied; with any present
alignment list the renderer succeeds. A non-absent alignment spec is
therefore a precondition of pipe mode. -/
theorem csv_to_pipe_tables_requires_alignment :
    (∀ (table_list : List (List Str)) (caption : Option Str),
      csv_to_pipe_tables table_list caption none = Except.error PanErr.typeError)
    ∧ (∀ n_col : ℕ, parse_alignment none n_col = none)
    ∧ (∀ (table_list : List (List Str)) (caption : Option Str)
        (al : List PandocAlignment),
        ∃ s : Str, csv_to_pipe_tables table_list caption (some al) = Except.ok s) := by
  refine ⟨fun _ _ => rfl, fun _ => rfl, fun table_list caption al => ?_⟩
  cases caption <;> exact ⟨_, rfl⟩

/-- Python `int(leaf)` on a string: an optional sign followed by digits
(underscore/whitespace forms, which the filter's domain values do not
use, are not modelled). -/
def pyIntParse (cs : Str) : Option ℤ :=
  let s := splitSign cs
  if s.2 ≠ [] ∧ allDigits s.2 then
    some (if s.1 then -(digitsVal s.2 : ℤ) else (digitsVal s.2 : ℤ))
  else none

/-- Python `float(leaf)` on a string: the shared decimal-literal parse. -/
def pyFloatParse (cs : Str) : Option ℚ := parseDecimal cs

/-- A domain leaf after the opportunistic coercion of `convert2table`:
an integer, a float (kept exact as a rational), or the original text. -/
inductive DomainLeaf
  | int (n : ℤ)
  | float (q : ℚ)
  | text (s : Str)
deriving DecidableEq, Repr

/-- The coercion chain of `convert2table`: try `int(leaf)`, then
`float(leaf)`, else keep the leaf as text. -/
def coerceLeaf (cs : Str) : DomainLeaf :=
  match pyIntParse cs with
  | some n => DomainLeaf.int n
  | none =>
    match pyFloatParse cs with
    | some q => DomainLeaf.float q
    | none => DomainLeaf.text cs

/-- Coerce every leaf of every sub-expression of a domain. -/
def coerceDomain (d : List (List Str)) : List (List DomainLeaf) :=
  d.map (fun sub => sub.map coerceLeaf)

/-- Embeds an uncoerced domain: every leaf stays the original string. -/
def rawDomain (d : List (List Str)) : List (List DomainLeaf) :=
  d.map (fun sub => sub.map DomainLeaf.text)

/-- The domain-merge step of `convert2table` (`if 'domain' in
global_options:` ...): when a global domain exists, the coerced global
entries are appended after `options["domain"]`, which is indexed
unconditionally — a missing local `domain` key raises `KeyError`. Local
entries are not coerced. -/
def mergeDomain (localDomain globalDomain : Option (List (List Str))) :
    Except PanErr (Option (List (List DomainLeaf))) :=
  match globalDomain with
  | none => Except.ok (localDomain.map rawDomain)
  | some g =>
    match localDomain with
    | none => Except.error PanErr.keyError
    | some l => Except.ok (some (rawDomain l ++ coerceDomain g))

/-- C10: merging a global domain with no local `domain` key raises the
key-lookup error, for every global domain; with a local domain present
the merge succeeds. -/
theorem mergeDomain_requires_local_key :
    (∀ g : List (List Str), mergeDomain none (some g) = Except.error PanErr.keyError)
    ∧ (∀ (l g : List (List Str)), ∃ d, mergeDomain (some l) (some g) = Except.ok (some d))
    ∧ (∀ l : Option (List (List Str)), mergeDomain l none = Except.ok (l.map rawDomain)) :=
  ⟨fun _ => rfl, fun l g => ⟨rawDomain l ++ coerceDomain g, rfl⟩, fun _ => rfl⟩

/-- C2 counterexample: with local domain `[["7"]]` and global domain
`[["5"]]` the code produces the *local* entries first and leaves the
local leaf `"7"` as text, which differs from the claimed
global-first, everything-coerced merge `[[5], [7]]`. -/
theorem mergeDomain_order_counterexample :
    mergeDomain (some [[['7']]]) (some [[['5']]]) =
      Except.ok (some [[DomainLeaf.text ['7']], [DomainLeaf.int 5]])
    ∧ [[DomainLeaf.text ['7']], [DomainLeaf.int 5]] ≠
        [[DomainLeaf.int 5], [DomainLeaf.int 7]] := by
  constructor
  · rfl
  · decide

/-- C2 (amended): the merged domain is the locally supplied entries,
uncoerced, followed by the globally supplied entries with each global
leaf coerced to integer, then float, then left as text; the coercion
sends `"5"` to integer 5, `"5.5"` to float 11/2 and `"abc"` to the text
`"abc"`. -/
theorem mergeDomain_amended :
    (∀ l g : List (List Str),
      mergeDomain (some l) (some g) = Except.ok (some (rawDomain l ++ coerceDomain g)))
    ∧ coerceLeaf ['5'] = DomainLeaf.int 5
    ∧ coerceLeaf ['5', '.', '5'] = DomainLeaf.float (11 / 2)
    ∧ coerceLeaf ['a', 'b', 'c'] = DomainLeaf.text ['a', 'b', 'c'] := by
  refine ⟨fun l g => rfl, by decide, ?_, by decide⟩
  show coerceLeaf ['5', '.', '5'] = DomainLeaf.float (11 / 2)
  have h5 : coerceLeaf ['5', '.', '5'] =
      DomainLeaf.float ((1 : ℚ) * ((5 : ℚ) + (5 : ℚ) / ((10 : ℚ) ^ 1))) := rfl
  rw [h5]
  norm_num
